import Mathlib

/-!
# Verification of the import/export value-conversion widgets

A shallow embedding of `import_export/widgets.py`: the scalar converters
(`IntegerWidget`, `DecimalWidget`, `CharWidget`, `BooleanWidget`, `DateWidget`,
`DateTimeWidget`) and the reference-resolving converters (`ForeignKeyWidget`,
`ManyToManyWidget`), together with theorems settling the specification's
claims about them.

Strings are modelled as `List Char`; Python values flowing through the
converters are modelled by the inductive `PyVal`; the Django collaborators
(entity storage and the key-value cache) are modelled explicitly, and the
reference converter's `clean` returns, besides its result, the updated cache
and the trace of storage queries it issued, so that claims about "no storage
query" and "no cache write" are statable.
-/

set_option linter.unusedVariables false

namespace ImportExport

/-! ## Digit strings -/

/-- Strings are modelled as lists of characters. -/
abbrev Str := List Char

/-- Is `c` an ASCII decimal digit? -/
def isDigitCh (c : Char) : Bool := 48 ≤ c.toNat && c.toNat ≤ 57

/-- The decimal digit character for `n` (`n ≥ 9` clamps to `'9'`). -/
def digitCh (n : Nat) : Char :=
  match n with
  | 0 => '0' | 1 => '1' | 2 => '2' | 3 => '3' | 4 => '4'
  | 5 => '5' | 6 => '6' | 7 => '7' | 8 => '8' | _ => '9'

/-- The numeric value of a digit character. -/
def digitVal (c : Char) : Nat := c.toNat - 48

/-- Decimal digit string of a natural number, most significant first,
no leading zeros (and `"0"` for `0`). -/
def natDigits (n : Nat) : Str :=
  if h : n < 10 then [digitCh n]
  else natDigits (n / 10) ++ [digitCh (n % 10)]
  decreasing_by exact Nat.div_lt_self (by omega) (by omega)

/-- Value of a digit string (most significant first). -/
def digitsVal (l : Str) : Nat := l.foldl (fun a c => a * 10 + digitVal c) 0

theorem digitVal_digitCh {n : Nat} (h : n < 10) : digitVal (digitCh n) = n := by
  interval_cases n <;> decide

theorem isDigitCh_digitCh {n : Nat} (h : n < 10) : isDigitCh (digitCh n) = true := by
  interval_cases n <;> decide

theorem digitsVal_foldl (a : Nat) (l : Str) :
    l.foldl (fun a c => a * 10 + digitVal c) a = a * 10 ^ l.length + digitsVal l := by
  induction l generalizing a with
  | nil => simp [digitsVal]
  | cons c t ih =>
    simp only [List.foldl_cons, List.length_cons, digitsVal]
    rw [ih (a * 10 + digitVal c), ih (0 * 10 + digitVal c)]
    ring

theorem digitsVal_append (l₁ l₂ : Str) :
    digitsVal (l₁ ++ l₂) = digitsVal l₁ * 10 ^ l₂.length + digitsVal l₂ := by
  simp only [digitsVal, List.foldl_append]
  exact digitsVal_foldl _ l₂

theorem natDigits_ne_nil (n : Nat) : natDigits n ≠ [] := by
  rw [natDigits]
  split <;> simp

theorem digitsVal_natDigits (n : Nat) : digitsVal (natDigits n) = n := by
  induction n using Nat.strong_induction_on with
  | _ n ih =>
    rw [natDigits]
    split
    · simp [digitsVal, digitVal_digitCh ‹n < 10›]
    · rw [digitsVal_append, ih (n / 10) (Nat.div_lt_self (by omega) (by omega))]
      simp [digitsVal, digitVal_digitCh (Nat.mod_lt n (by omega))]
      omega

theorem natDigits_all_digit (n : Nat) : ∀ c ∈ natDigits n, isDigitCh c = true := by
  induction n using Nat.strong_induction_on with
  | _ n ih =>
    rw [natDigits]
    split
    · simp [isDigitCh_digitCh ‹n < 10›]
    · intro c hc
      rcases List.mem_append.1 hc with h | h
      · exact ih (n / 10) (Nat.div_lt_self (by omega) (by omega)) c h
      · simp only [List.mem_singleton] at h
        subst h
        exact isDigitCh_digitCh (Nat.mod_lt n (by omega))

theorem digitsVal_replicate_zero (k : Nat) (l : Str) :
    digitsVal (List.replicate k '0' ++ l) = digitsVal l := by
  induction k with
  | zero => simp
  | succ k ih =>
    rw [List.replicate_succ, List.cons_append]
    simpa [digitsVal, digitVal] using ih

/-- Length of the digit string: `natDigits n` has `k` digits iff
`10^(k-1) ≤ n < 10^k` (with `k = 1` for `n < 10`). -/
theorem natDigits_length_le {n k : Nat} (h : n < 10 ^ k) (hk : 0 < k) :
    (natDigits n).length ≤ k := by
  induction k generalizing n with
  | zero => omega
  | succ k ih =>
    rw [natDigits]
    split
    · simp
    · have h10 : ¬ n < 10 := ‹_›
      have hk0 : 0 < k := by
        by_contra hk0
        have : k = 0 := by omega
        subst this
        simp at h
        omega
      have : n / 10 < 10 ^ k := by
        rw [Nat.div_lt_iff_lt_mul (by omega)]
        calc n < 10 ^ (k + 1) := h
        _ = 10 ^ k * 10 := by ring
      have := ih this hk0
      simp only [List.length_append, List.length_singleton]
      omega

theorem natDigits_head_ne_zero {n : Nat} (hn : n ≠ 0) :
    ∀ c t, natDigits n = c :: t → c ≠ '0' := by
  induction n using Nat.strong_induction_on with
  | _ n ih =>
    intro c t heq
    rw [natDigits] at heq
    split at heq
    · simp only [List.cons.injEq] at heq
      have h10 : n < 10 := ‹_›
      obtain ⟨h1, -⟩ := heq
      subst h1
      intro hc
      interval_cases n <;> simp_all [digitCh]
    · have h10 : ¬ n < 10 := ‹_›
      rcases hhd : natDigits (n / 10) with _ | ⟨c', t'⟩
      · exact absurd hhd (natDigits_ne_nil _)
      · rw [hhd, List.cons_append] at heq
        simp only [List.cons.injEq] at heq
        obtain ⟨h1, -⟩ := heq
        subst h1
        have hd0 : n / 10 ≠ 0 := by
          intro h0
          have := Nat.div_eq_zero_iff (by omega : 0 < 10) |>.1 h0
          omega
        exact ih (n / 10) (Nat.div_lt_self (by omega) (by omega)) hd0 c' t' hhd

theorem digitsVal_cons (c : Char) (t : Str) :
    digitsVal (c :: t) = digitVal c * 10 ^ t.length + digitsVal t := by
  show List.foldl (fun a c => a * 10 + digitVal c) 0 (c :: t) = _
  rw [List.foldl_cons, digitsVal_foldl]
  ring

theorem digitsVal_lt_pow {l : Str} (h : ∀ c ∈ l, isDigitCh c = true) :
    digitsVal l < 10 ^ l.length := by
  induction l with
  | nil => simp [digitsVal]
  | cons c t ih =>
    rw [digitsVal_cons, List.length_cons]
    have hc := h c (List.mem_cons_self c t)
    have hd : digitVal c ≤ 9 := by
      simp only [isDigitCh, Bool.and_eq_true, decide_eq_true_eq] at hc
      unfold digitVal
      omega
    have ht := ih (fun x hx => h x (List.mem_cons_of_mem c hx))
    calc digitVal c * 10 ^ t.length + digitsVal t
        < digitVal c * 10 ^ t.length + 10 ^ t.length := Nat.add_lt_add_left ht _
      _ ≤ 9 * 10 ^ t.length + 10 ^ t.length :=
        Nat.add_le_add_right (Nat.mul_le_mul_right _ hd) _
      _ = 10 ^ (t.length + 1) := by ring

/-- A year between 1000 and 9999 has exactly four decimal digits. -/
theorem natDigits_length_four {n : Nat} (h1 : 1000 ≤ n) (h2 : n ≤ 9999) :
    (natDigits n).length = 4 := by
  have hle : (natDigits n).length ≤ 4 := natDigits_length_le (by omega) (by omega)
  by_contra hne
  have hlt : (natDigits n).length ≤ 3 := by omega
  have hv := digitsVal_lt_pow (natDigits_all_digit n)
  rw [digitsVal_natDigits] at hv
  have : n < 10 ^ 3 := lt_of_lt_of_le hv (Nat.pow_le_pow_right (by omega) hlt)
  omega

/-! ## Python `int`/`str` conversions -/

/-- Characters Python's `int()` strips from both ends of its argument. -/
def isPySpace (c : Char) : Bool :=
  c = ' ' || c = '\t' || c = '\n' || c = '\r' || c = '\x0b' || c = '\x0c'

/-- Strip surrounding whitespace, as Python's `int()` does. -/
def stripWs (s : Str) : Str :=
  ((s.dropWhile isPySpace).reverse.dropWhile isPySpace).reverse

/-- Parse a whole (non-empty, all-digit) string as a natural number. -/
def parseNatAll (l : Str) : Option Nat :=
  if l ≠ [] ∧ l.all isDigitCh then some (digitsVal l) else none

/-- The sign-and-digits core of Python's `int()`. -/
def pyIntCore (t : Str) : Option Int :=
  match t with
  | [] => none
  | c :: rest =>
    if c = '-' then (parseNatAll rest).map (fun n : Nat => -(n : Int))
    else if c = '+' then (parseNatAll rest).map (fun n : Nat => (n : Int))
    else (parseNatAll t).map (fun n : Nat => (n : Int))

/-- Python 2's `int(string)`: strip surrounding whitespace, optional sign,
then decimal digits; `none` models the `ValueError` raise. -/
def pyInt (s : Str) : Option Int := pyIntCore (stripWs s)

/-- Python's `str` of an integer (`force_text` on an `int`). -/
def intStr (v : Int) : Str :=
  if v < 0 then '-' :: natDigits v.natAbs else natDigits v.natAbs

theorem isPySpace_eq_false_of_digit {c : Char} (h : isDigitCh c = true) :
    isPySpace c = false := by
  simp only [isDigitCh, Bool.and_eq_true, decide_eq_true_eq] at h
  simp only [isPySpace, Bool.or_eq_false_iff, decide_eq_false_iff_not]
  refine ⟨⟨⟨⟨⟨?_, ?_⟩, ?_⟩, ?_⟩, ?_⟩, ?_⟩ <;> rintro rfl <;> simp_all

theorem dropWhile_eq_self_of {p : Char → Bool} {l : Str}
    (h : ∀ c ∈ l, p c = false) : l.dropWhile p = l := by
  cases l with
  | nil => rfl
  | cons c t => simp [List.dropWhile_cons, h c (List.mem_cons_self c t)]

theorem stripWs_eq_self {l : Str} (h : ∀ c ∈ l, isPySpace c = false) :
    stripWs l = l := by
  unfold stripWs
  rw [dropWhile_eq_self_of h, dropWhile_eq_self_of (by
    intro c hc
    exact h c (List.mem_reverse.1 hc)), List.reverse_reverse]

theorem parseNatAll_natDigits (n : Nat) : parseNatAll (natDigits n) = some n := by
  unfold parseNatAll
  rw [if_pos ⟨natDigits_ne_nil n, List.all_eq_true.2 (natDigits_all_digit n)⟩,
    digitsVal_natDigits]

theorem digit_ne_minus {c : Char} (h : isDigitCh c = true) : ¬ c = '-' := by
  rintro rfl
  simp [isDigitCh] at h

theorem digit_ne_plus {c : Char} (h : isDigitCh c = true) : ¬ c = '+' := by
  rintro rfl
  simp [isDigitCh] at h

theorem stripWs_natDigits (n : Nat) : stripWs (natDigits n) = natDigits n :=
  stripWs_eq_self fun c hc => isPySpace_eq_false_of_digit (natDigits_all_digit n c hc)

theorem pyIntCore_minus (rest : Str) :
    pyIntCore ('-' :: rest) = (parseNatAll rest).map (fun n : Nat => -(n : Int)) := rfl

theorem pyIntCore_nosign {c : Char} (h1 : ¬ c = '-') (h2 : ¬ c = '+') (rest : Str) :
    pyIntCore (c :: rest) = (parseNatAll (c :: rest)).map (fun n : Nat => (n : Int)) := by
  simp [pyIntCore, h1, h2]

/-- Round trip: Python's `int` of `str` of an integer gives it back. -/
theorem pyInt_intStr (v : Int) : pyInt (intStr v) = some v := by
  unfold pyInt intStr
  split
  · rw [stripWs_eq_self (by
      intro c hc
      rcases List.mem_cons.1 hc with rfl | hc
      · decide
      · exact isPySpace_eq_false_of_digit (natDigits_all_digit _ c hc))]
    rw [pyIntCore_minus, parseNatAll_natDigits]
    simp only [Option.map_some', Option.some.injEq]
    omega
  · rw [stripWs_natDigits]
    rcases hd : natDigits v.natAbs with _ | ⟨c, t⟩
    · exact absurd hd (natDigits_ne_nil _)
    · have hdig : isDigitCh c = true :=
        natDigits_all_digit _ c (hd ▸ List.mem_cons_self c t)
      rw [pyIntCore_nosign (digit_ne_minus hdig) (digit_ne_plus hdig), ← hd,
        parseNatAll_natDigits]
      simp only [Option.map_some', Option.some.injEq]
      omega

/-! ## Python `Decimal`

A finite Python `Decimal` is a sign, a coefficient and an exponent; its
string form follows the General Decimal Arithmetic *to-scientific-string*
conversion, which is what `str(Decimal(...))` produces, and the constructor
`Decimal(string)` parses sign, digits with an optional point, and an
optional `E` exponent. Special values (NaN, infinities) are outside the
converters' numeric domain and are not modelled. -/

/-- A finite Python `Decimal`. The numeric value is
`(-1)^sign * coeff * 10^exp`, but distinct triples are distinct `Decimal`s
(`1`, `1.0` and `1E+1` all differ), exactly as in Python. -/
structure PyDecimal where
  sign : Bool
  coeff : Nat
  exp : Int
deriving DecidableEq, Repr

/-- The coefficient digits with a point inserted after the first digit
(when there is more than one), as used by exponential notation. -/
def sciMantissa (ds : Str) : Str :=
  match ds with
  | [] => []
  | [c0] => [c0]
  | c0 :: t => c0 :: '.' :: t

/-- The unsigned part of the to-scientific-string conversion of a finite
`Decimal` with coefficient `c` and exponent `e`. -/
def decStrBody (c : Nat) (e : Int) : Str :=
  let ds := natDigits c
  let n : Int := ds.length
  let adj : Int := e + n - 1
  if e ≤ 0 ∧ -6 ≤ adj then
    if e = 0 then ds
    else if 0 < n + e then
      ds.take (n + e).toNat ++ '.' :: ds.drop (n + e).toNat
    else
      '0' :: '.' :: (List.replicate (-e - n).toNat '0' ++ ds)
  else
    sciMantissa ds ++
    'E' :: (if 0 ≤ adj then '+' :: natDigits adj.toNat
            else '-' :: natDigits (-adj).toNat)

/-- `str` of a finite `Decimal`: the to-scientific-string conversion. -/
def decStr (d : PyDecimal) : Str :=
  (if d.sign then ['-'] else []) ++ decStrBody d.coeff d.exp

/-- Strip one optional sign character, reporting whether it was `'-'`. -/
def splitSignCh (l : Str) : Bool × Str :=
  match l with
  | [] => (false, [])
  | c :: t => if c = '-' then (true, t) else if c = '+' then (false, t) else (false, c :: t)

/-- Split a string at its first `'E'`/`'e'`, if any. -/
def splitAtE (l : Str) : Str × Option Str :=
  match l with
  | [] => ([], none)
  | c :: t =>
    if c = 'E' ∨ c = 'e' then ([], some t)
    else
      let p := splitAtE t
      (c :: p.1, p.2)

/-- Parse an unsigned mantissa `digits [. digits]` (at least one digit in
total): the coefficient value and the number of fractional digits. -/
def parseMantissa (m : Str) : Option (Nat × Nat) :=
  let ip := m.takeWhile isDigitCh
  match m.dropWhile isDigitCh with
  | [] => if ip = [] then none else some (digitsVal ip, 0)
  | c :: frac =>
    if c = '.' ∧ frac.all isDigitCh ∧ (ip ≠ [] ∨ frac ≠ []) then
      some (digitsVal (ip ++ frac), frac.length)
    else none

/-- Parse the exponent part after the `E`: an optional sign and digits. -/
def parseExpPart (l : Str) : Option Int :=
  let p := splitSignCh l
  (parseNatAll p.2).map (fun n : Nat => if p.1 then -(n : Int) else (n : Int))

/-- Parse the unsigned part of a decimal string: mantissa and optional
`E` exponent, yielding coefficient and exponent. -/
def parseDecBody (t : Str) : Option (Nat × Int) :=
  match parseMantissa (splitAtE t).1 with
  | none => none
  | some cf =>
    match (splitAtE t).2 with
    | none => some (cf.1, -(cf.2 : Int))
    | some es => (parseExpPart es).map (fun e2 => (cf.1, e2 - cf.2))

/-- Python's `Decimal(string)` constructor, restricted to finite numeric
strings; `none` models the `InvalidOperation` raise. -/
def parseDecString (s : Str) : Option PyDecimal :=
  (parseDecBody (splitSignCh s).2).map
    (fun ce => ⟨(splitSignCh s).1, ce.1, ce.2⟩)

theorem digit_ne {c : Char} (h : isDigitCh c = true) (x : Char)
    (hx : x.toNat < 48 ∨ 57 < x.toNat) : ¬ c = x := by
  rintro rfl
  simp only [isDigitCh, Bool.and_eq_true, decide_eq_true_eq] at h
  omega

theorem splitAtE_no_e {l : Str} (h : ∀ c ∈ l, ¬(c = 'E' ∨ c = 'e')) :
    splitAtE l = (l, none) := by
  induction l with
  | nil => rfl
  | cons c t ih =>
    rw [splitAtE, if_neg (h c (List.mem_cons_self c t))]
    simp [ih fun x hx => h x (List.mem_cons_of_mem c hx)]

theorem splitAtE_append {l rest : Str} (h : ∀ c ∈ l, ¬(c = 'E' ∨ c = 'e')) :
    splitAtE (l ++ 'E' :: rest) = (l, some rest) := by
  induction l with
  | nil => simp [splitAtE]
  | cons c t ih =>
    rw [List.cons_append, splitAtE, if_neg (h c (List.mem_cons_self c t))]
    simp [ih fun x hx => h x (List.mem_cons_of_mem c hx)]

theorem not_e_of_digit {c : Char} (h : isDigitCh c = true) : ¬(c = 'E' ∨ c = 'e') := by
  rintro (rfl | rfl) <;> simp [isDigitCh] at h

theorem takeWhile_append_of {p : Char → Bool} {l₁ l₂ : Str} {c : Char}
    (h1 : ∀ x ∈ l₁, p x = true) (hc : p c = false) :
    (l₁ ++ c :: l₂).takeWhile p = l₁ := by
  induction l₁ with
  | nil => simp [List.takeWhile_cons, hc]
  | cons a t ih =>
    rw [List.cons_append, List.takeWhile_cons, h1 a (List.mem_cons_self a t)]
    simp [ih fun x hx => h1 x (List.mem_cons_of_mem a hx)]

theorem dropWhile_append_of {p : Char → Bool} {l₁ l₂ : Str} {c : Char}
    (h1 : ∀ x ∈ l₁, p x = true) (hc : p c = false) :
    (l₁ ++ c :: l₂).dropWhile p = c :: l₂ := by
  induction l₁ with
  | nil => simp [List.dropWhile_cons, hc]
  | cons a t ih =>
    rw [List.cons_append, List.dropWhile_cons, h1 a (List.mem_cons_self a t)]
    simp [ih fun x hx => h1 x (List.mem_cons_of_mem a hx)]

theorem takeWhile_all {p : Char → Bool} {l : Str} (h : ∀ x ∈ l, p x = true) :
    l.takeWhile p = l := by
  induction l with
  | nil => rfl
  | cons a t ih =>
    rw [List.takeWhile_cons, h a (List.mem_cons_self a t)]
    simp [ih fun x hx => h x (List.mem_cons_of_mem a hx)]

theorem dropWhile_all {p : Char → Bool} {l : Str} (h : ∀ x ∈ l, p x = true) :
    l.dropWhile p = [] := by
  induction l with
  | nil => rfl
  | cons a t ih =>
    rw [List.dropWhile_cons, h a (List.mem_cons_self a t)]
    exact ih fun x hx => h x (List.mem_cons_of_mem a hx)

theorem parseMantissa_digits {l : Str} (hne : l ≠ [])
    (hd : ∀ c ∈ l, isDigitCh c = true) :
    parseMantissa l = some (digitsVal l, 0) := by
  unfold parseMantissa
  rw [dropWhile_all hd, takeWhile_all hd]
  simp [hne]

theorem parseMantissa_point {l₁ l₂ : Str} (h1 : ∀ c ∈ l₁, isDigitCh c = true)
    (h2 : ∀ c ∈ l₂, isDigitCh c = true) (hne : l₁ ≠ [] ∨ l₂ ≠ []) :
    parseMantissa (l₁ ++ '.' :: l₂) = some (digitsVal (l₁ ++ l₂), l₂.length) := by
  unfold parseMantissa
  rw [dropWhile_append_of h1 (by decide), takeWhile_append_of h1 (by decide)]
  simp only [List.all_eq_true]
  rw [if_pos ⟨trivial, h2, hne⟩]

theorem parseExpPart_plus (a : Nat) : parseExpPart ('+' :: natDigits a) = some (a : Int) := by
  unfold parseExpPart splitSignCh
  simp [parseNatAll_natDigits]

theorem parseExpPart_minus (a : Nat) :
    parseExpPart ('-' :: natDigits a) = some (-(a : Int)) := by
  unfold parseExpPart splitSignCh
  simp [parseNatAll_natDigits]

theorem splitSignCh_nosign {c : Char} {t : Str} (h1 : ¬ c = '-') (h2 : ¬ c = '+') :
    splitSignCh (c :: t) = (false, c :: t) := by
  simp [splitSignCh, h1, h2]

theorem sciMantissa_single (c0 : Char) : sciMantissa [c0] = [c0] := rfl

theorem sciMantissa_cons (c0 c1 : Char) (t : Str) :
    sciMantissa (c0 :: c1 :: t) = c0 :: '.' :: c1 :: t := rfl

theorem parseDecBody_eq_none_of {t m : Str} (h : splitAtE t = (m, none)) :
    parseDecBody t = (parseMantissa m).map (fun cf => (cf.1, -(cf.2 : Int))) := by
  unfold parseDecBody
  rcases hpm : parseMantissa m with _ | cf <;> simp [h, hpm]

theorem parseDecBody_eq_some_of {t m es : Str} (h : splitAtE t = (m, some es)) :
    parseDecBody t =
      (parseMantissa m).bind
        (fun cf : Nat × Nat =>
          (parseExpPart es).map (fun e2 : Int => (cf.1, e2 - (cf.2 : Int)))) := by
  unfold parseDecBody
  rcases hpm : parseMantissa m with _ | cf <;> simp [h, hpm]

theorem singleton_digit : ∀ x ∈ ['0'], isDigitCh x = true := by
  intro x hx
  simp only [List.mem_singleton] at hx
  subst hx
  decide

/-- Round trip, unsigned part: parsing the printed body of a finite
`Decimal` recovers its coefficient and exponent. -/
theorem parseDecBody_decStrBody (c : Nat) (e : Int) :
    parseDecBody (decStrBody c e) = some (c, e) := by
  have hall := natDigits_all_digit c
  have hne := natDigits_ne_nil c
  have hlen : 0 < (natDigits c).length := List.length_pos.2 hne
  simp only [decStrBody]
  by_cases hplain : e ≤ 0 ∧ -6 ≤ e + ((natDigits c).length : Int) - 1
  · rw [if_pos hplain]
    by_cases he0 : e = 0
    · rw [if_pos he0]
      rw [parseDecBody_eq_none_of (splitAtE_no_e fun x hx => not_e_of_digit (hall x hx))]
      rw [parseMantissa_digits hne hall, digitsVal_natDigits]
      simp [he0]
    · rw [if_neg he0]
      by_cases hpos : 0 < ((natDigits c).length : Int) + e
      · rw [if_pos hpos]
        have hkle : (((natDigits c).length : Int) + e).toNat ≤ (natDigits c).length := by
          omega
        have htd := List.take_append_drop (((natDigits c).length : Int) + e).toNat
          (natDigits c)
        have h1 : ∀ x ∈ (natDigits c).take (((natDigits c).length : Int) + e).toNat,
            isDigitCh x = true := fun x hx => hall x (List.take_subset _ _ hx)
        have h2 : ∀ x ∈ (natDigits c).drop (((natDigits c).length : Int) + e).toNat,
            isDigitCh x = true := fun x hx => hall x (List.drop_subset _ _ hx)
        rw [parseDecBody_eq_none_of (splitAtE_no_e ?_)]
        · rw [parseMantissa_point h1 h2 (Or.inl ?_)]
          · rw [htd, digitsVal_natDigits]
            simp only [Option.map_some', Option.some.injEq, Prod.mk.injEq,
              List.length_drop]
            exact ⟨by trivial, by omega⟩
          · rw [Ne, List.take_eq_nil_iff]
            push_neg
            exact ⟨by omega, hne⟩
        · intro x hx
          rcases List.mem_append.1 hx with hx | hx
          · exact not_e_of_digit (h1 x hx)
          · rcases List.mem_cons.1 hx with rfl | hx
            · decide
            · exact not_e_of_digit (h2 x hx)
      · rw [if_neg hpos]
        have hbody : '0' :: '.' ::
            (List.replicate (-e - ((natDigits c).length : Int)).toNat '0' ++ natDigits c)
            = ['0'] ++ '.' ::
            (List.replicate (-e - ((natDigits c).length : Int)).toNat '0' ++ natDigits c) := rfl
        rw [hbody]
        have h2 : ∀ x ∈ List.replicate (-e - ((natDigits c).length : Int)).toNat '0'
            ++ natDigits c, isDigitCh x = true := by
          intro x hx
          rcases List.mem_append.1 hx with hx | hx
          · rw [List.eq_of_mem_replicate hx]
            decide
          · exact hall x hx
        rw [parseDecBody_eq_none_of (splitAtE_no_e ?_)]
        · rw [parseMantissa_point singleton_digit h2 (Or.inl (by simp))]
          have hrep : (['0'] ++ (List.replicate (-e - ((natDigits c).length : Int)).toNat '0'
              ++ natDigits c))
              = List.replicate ((-e - ((natDigits c).length : Int)).toNat + 1) '0'
              ++ natDigits c := by
            rw [List.replicate_succ]
            simp
          rw [hrep, digitsVal_replicate_zero, digitsVal_natDigits]
          simp only [Option.map_some', Option.some.injEq, Prod.mk.injEq,
            List.length_append, List.length_replicate]
          exact ⟨by trivial, by omega⟩
        · intro x hx
          rcases List.mem_append.1 hx with hx | hx
          · simp only [List.mem_singleton] at hx
            subst hx
            decide
          · rcases List.mem_cons.1 hx with rfl | hx
            · decide
            · exact not_e_of_digit (h2 x hx)
  · rw [if_neg hplain]
    have hexp : ∀ a : Int,
        parseExpPart (if 0 ≤ a then '+' :: natDigits a.toNat
          else '-' :: natDigits (-a).toNat) = some a := by
      intro a
      split
      · rw [parseExpPart_plus]
        congr 1
        omega
      · rw [parseExpPart_minus]
        congr 1
        omega
    rcases hd : natDigits c with _ | ⟨c0, t⟩
    · exact absurd hd hne
    · have hd0 : isDigitCh c0 = true :=
        hall c0 (by rw [hd]; exact List.mem_cons_self c0 t)
      have h1 : ∀ x ∈ [c0], isDigitCh x = true := by
        intro x hx
        simp only [List.mem_singleton] at hx
        subst hx
        exact hd0
      cases t with
      | nil =>
        rw [sciMantissa_single]
        rw [parseDecBody_eq_some_of
          (splitAtE_append (fun x hx => not_e_of_digit (h1 x hx)))]
        rw [parseMantissa_digits (List.cons_ne_nil c0 []) h1]
        have hv : digitsVal [c0] = c := by
          rw [← hd, digitsVal_natDigits]
        simp only [Option.some_bind', hv, hexp, Option.map_some', Option.some.injEq,
          Prod.mk.injEq, List.length_cons, List.length_nil]
        exact ⟨trivial, by omega⟩
      | cons c1 t' =>
        rw [sciMantissa_cons]
        have h2 : ∀ x ∈ c1 :: t', isDigitCh x = true := fun x hx =>
          hall x (by rw [hd]; exact List.mem_cons_of_mem c0 hx)
        have hmant : (c0 :: '.' :: c1 :: t') = [c0] ++ '.' :: (c1 :: t') := rfl
        rw [hmant]
        rw [parseDecBody_eq_some_of (splitAtE_append (by
          intro x hx
          rcases List.mem_append.1 hx with hx | hx
          · exact not_e_of_digit (h1 x hx)
          · rcases List.mem_cons.1 hx with rfl | hx
            · decide
            · exact not_e_of_digit (h2 x hx)))]
        rw [parseMantissa_point h1 h2 (Or.inl (List.cons_ne_nil c0 []))]
        have hv : digitsVal ([c0] ++ c1 :: t') = c := by
          rw [List.singleton_append, ← hd, digitsVal_natDigits]
        simp only [Option.some_bind', hv, hexp, Option.map_some', Option.some.injEq,
          Prod.mk.injEq, List.length_cons]
        exact ⟨trivial, by omega⟩

/-- Round trip: `Decimal(str(d)) = d` for every finite Python `Decimal`. -/
theorem parseDecBody_head_nondigit {c : Char} {t : Str} (hdig : isDigitCh c = false)
    (hdot : ¬ c = '.') (hE : ¬(c = 'E' ∨ c = 'e')) : parseDecBody (c :: t) = none := by
  have h1 : splitAtE (c :: t) = (c :: (splitAtE t).1, (splitAtE t).2) := by
    rw [splitAtE]
    simp [hE]
  have h2 : parseMantissa (c :: (splitAtE t).1) = none := by
    unfold parseMantissa
    rw [List.dropWhile_cons, List.takeWhile_cons]
    simp [hdig, hdot]
  unfold parseDecBody
  simp [h1, h2]

/-- A string accepted by the body parser cannot begin with a sign. -/
theorem splitSignCh_eq_of_parse {l : Str} {x : Nat × Int}
    (h : parseDecBody l = some x) : splitSignCh l = (false, l) := by
  cases l with
  | nil => rfl
  | cons c t =>
    by_cases h1 : c = '-'
    · subst h1
      rw [parseDecBody_head_nondigit (by decide) (by decide) (by decide)] at h
      exact absurd h (by simp)
    · by_cases h2 : c = '+'
      · subst h2
        rw [parseDecBody_head_nondigit (by decide) (by decide) (by decide)] at h
        exact absurd h (by simp)
      · exact splitSignCh_nosign h1 h2

/-- Round trip: `Decimal(str(d)) = d` for every finite Python `Decimal`. -/
theorem parseDecString_decStr (d : PyDecimal) : parseDecString (decStr d) = some d := by
  obtain ⟨sg, c, e⟩ := d
  cases sg
  · have hds : decStr ⟨false, c, e⟩ = decStrBody c e := by
      simp [decStr]
    rw [hds]
    unfold parseDecString
    rw [splitSignCh_eq_of_parse (parseDecBody_decStrBody c e)]
    simp [parseDecBody_decStrBody c e]
  · have hds : decStr ⟨true, c, e⟩ = '-' :: decStrBody c e := by
      simp [decStr]
    rw [hds]
    unfold parseDecString
    have hsp : splitSignCh ('-' :: decStrBody c e) = (true, decStrBody c e) := by
      simp [splitSignCh]
    rw [hsp]
    simp [parseDecBody_decStrBody c e]

/-! ## Python dates and datetimes

`DateWidget` and `DateTimeWidget` are modelled at their default formats
(`"%Y-%m-%d"` and `"%Y-%m-%d %H:%M:%S"`, the values their constructors
install when no `format` argument is given). For years 1900 and later,
Python 2's `strftime` zero-pads each directive (`%Y` to four digits, the
rest to two); for earlier years it raises `ValueError`. `DateWidget.render`
absorbs that raise with Django's `datetime_safe` fallback, whose final year
substitution is `"%4d" % year` — *space*-padded, so years below 1000 render
with leading spaces; `DateTimeWidget.render` has no fallback and the raise
escapes. `strptime` accepts one or two digits for `%m`/`%d`/`%H`/`%M`/`%S`
and exactly four digits for `%Y`, and the resulting `datetime` construction
validates the ranges, raising `ValueError` otherwise (modelled as `none`).
Python datetimes are modelled at second resolution: the default format has
no sub-second directive, so the converters' textual domain carries no
microseconds. -/

/-- A Python `date`. -/
structure PyDate where
  year : Nat
  month : Nat
  day : Nat
deriving DecidableEq, Repr

/-- A Python `datetime`, at second resolution. -/
structure PyDateTime where
  year : Nat
  month : Nat
  day : Nat
  hour : Nat
  minute : Nat
  second : Nat
deriving DecidableEq, Repr

def isLeap (y : Nat) : Bool := (y % 4 = 0 && ¬ y % 100 = 0) || y % 400 = 0

def daysInMonth (y m : Nat) : Nat :=
  if m = 2 then (if isLeap y then 29 else 28)
  else if m = 4 ∨ m = 6 ∨ m = 9 ∨ m = 11 then 30
  else 31

/-- The dates representable by a Python `date` object. -/
def PyDate.Valid (d : PyDate) : Prop :=
  1 ≤ d.year ∧ d.year ≤ 9999 ∧ 1 ≤ d.month ∧ d.month ≤ 12 ∧
    1 ≤ d.day ∧ d.day ≤ daysInMonth d.year d.month

instance (d : PyDate) : Decidable d.Valid := by
  unfold PyDate.Valid
  infer_instance

/-- The datetimes representable by a Python `datetime` (second resolution). -/
def PyDateTime.Valid (t : PyDateTime) : Prop :=
  PyDate.Valid ⟨t.year, t.month, t.day⟩ ∧ t.hour ≤ 23 ∧ t.minute ≤ 59 ∧ t.second ≤ 59

instance (t : PyDateTime) : Decidable t.Valid := by
  unfold PyDateTime.Valid
  infer_instance

/-- Zero-pad the decimal form of `n` to (at least) `w` digits. -/
def padDigits (w n : Nat) : Str :=
  List.replicate (w - (natDigits n).length) '0' ++ natDigits n

/-- `strftime("%Y-%m-%d")`. -/
def dateStrftimeDefault (d : PyDate) : Str :=
  padDigits 4 d.year ++ '-' :: (padDigits 2 d.month ++ '-' :: padDigits 2 d.day)

/-- `strftime("%Y-%m-%d %H:%M:%S")`. -/
def datetimeStrftimeDefault (t : PyDateTime) : Str :=
  dateStrftimeDefault ⟨t.year, t.month, t.day⟩ ++
    ' ' :: (padDigits 2 t.hour ++ ':' :: (padDigits 2 t.minute ++ ':' :: padDigits 2 t.second))

/-- `datetime_safe.new_date(value).strftime("%Y-%m-%d")` for a pre-1900
date: the surrogate-year trick formats the other directives normally, then
substitutes the real year as `"%4d" % year` — padded with *spaces*, not
zeros, to width four. -/
def datetimeSafeDateStr (d : PyDate) : Str :=
  List.replicate (4 - (natDigits d.year).length) ' ' ++
    (natDigits d.year ++ '-' :: (padDigits 2 d.month ++ '-' :: padDigits 2 d.day))

/-- Consume a run of one or two digits (the `%m`/`%d`/`%H`/`%M`/`%S`
directives). -/
def parse2 (l : Str) : Option (Nat × Str) :=
  if (l.takeWhile isDigitCh).length = 1 ∨ (l.takeWhile isDigitCh).length = 2 then
    some (digitsVal (l.takeWhile isDigitCh), l.dropWhile isDigitCh)
  else none

/-- Consume a run of exactly four digits (the `%Y` directive). -/
def parse4 (l : Str) : Option (Nat × Str) :=
  if (l.takeWhile isDigitCh).length = 4 then
    some (digitsVal (l.takeWhile isDigitCh), l.dropWhile isDigitCh)
  else none

/-- Consume one expected literal character of the format. -/
def expectCh (c : Char) (l : Str) : Option Str :=
  match l with
  | [] => none
  | x :: t => if x = c then some t else none

/-- `datetime.strptime(s, "%Y-%m-%d").date()`: parse and validate. -/
def parseDateDefault (l : Str) : Option PyDate :=
  (parse4 l).bind fun yr =>
  (expectCh '-' yr.2).bind fun r2 =>
  (parse2 r2).bind fun mo =>
  (expectCh '-' mo.2).bind fun r4 =>
  (parse2 r4).bind fun dy =>
  if dy.2 = [] ∧ 1 ≤ yr.1 ∧ 1 ≤ mo.1 ∧ mo.1 ≤ 12 ∧ 1 ≤ dy.1 ∧
      dy.1 ≤ daysInMonth yr.1 mo.1 then
    some ⟨yr.1, mo.1, dy.1⟩
  else none

/-- `datetime.strptime(s, "%Y-%m-%d %H:%M:%S")`: parse and validate. -/
def parseDateTimeDefault (l : Str) : Option PyDateTime :=
  (parse4 l).bind fun yr =>
  (expectCh '-' yr.2).bind fun r2 =>
  (parse2 r2).bind fun mo =>
  (expectCh '-' mo.2).bind fun r4 =>
  (parse2 r4).bind fun dy =>
  (expectCh ' ' dy.2).bind fun r6 =>
  (parse2 r6).bind fun hh =>
  (expectCh ':' hh.2).bind fun r8 =>
  (parse2 r8).bind fun mi =>
  (expectCh ':' mi.2).bind fun r10 =>
  (parse2 r10).bind fun ss =>
  if ss.2 = [] ∧ 1 ≤ yr.1 ∧ 1 ≤ mo.1 ∧ mo.1 ≤ 12 ∧ 1 ≤ dy.1 ∧
      dy.1 ≤ daysInMonth yr.1 mo.1 ∧ hh.1 ≤ 23 ∧ mi.1 ≤ 59 ∧ ss.1 ≤ 59 then
    some ⟨yr.1, mo.1, dy.1, hh.1, mi.1, ss.1⟩
  else none

theorem padDigits_all_digit (w n : Nat) : ∀ c ∈ padDigits w n, isDigitCh c = true := by
  intro c hc
  rcases List.mem_append.1 hc with hc | hc
  · rw [List.eq_of_mem_replicate hc]
    decide
  · exact natDigits_all_digit n c hc

theorem digitsVal_padDigits (w n : Nat) : digitsVal (padDigits w n) = n := by
  unfold padDigits
  rw [digitsVal_replicate_zero, digitsVal_natDigits]

theorem length_padDigits {w n : Nat} (h : n < 10 ^ w) (hw : 0 < w) :
    (padDigits w n).length = w := by
  have := natDigits_length_le h hw
  have := List.length_pos.2 (natDigits_ne_nil n)
  simp only [padDigits, List.length_append, List.length_replicate]
  omega

theorem parse4_pad {y : Nat} (hy : y < 10000) {c : Char} (hc : isDigitCh c = false)
    (rest : Str) : parse4 (padDigits 4 y ++ c :: rest) = some (y, c :: rest) := by
  unfold parse4
  rw [takeWhile_append_of (padDigits_all_digit 4 y) hc,
    dropWhile_append_of (padDigits_all_digit 4 y) hc,
    length_padDigits (by omega) (by omega), digitsVal_padDigits]
  simp

theorem parse2_pad {m : Nat} (hm : m < 100) {c : Char} (hc : isDigitCh c = false)
    (rest : Str) : parse2 (padDigits 2 m ++ c :: rest) = some (m, c :: rest) := by
  unfold parse2
  rw [takeWhile_append_of (padDigits_all_digit 2 m) hc,
    dropWhile_append_of (padDigits_all_digit 2 m) hc,
    length_padDigits (by omega) (by omega), digitsVal_padDigits]
  simp

theorem parse2_pad_end {m : Nat} (hm : m < 100) :
    parse2 (padDigits 2 m) = some (m, []) := by
  unfold parse2
  rw [takeWhile_all (padDigits_all_digit 2 m), dropWhile_all (padDigits_all_digit 2 m),
    length_padDigits (by omega) (by omega), digitsVal_padDigits]
  simp

theorem expectCh_self (c : Char) (t : Str) : expectCh c (c :: t) = some t := by
  simp [expectCh]

theorem daysInMonth_le (y m : Nat) : daysInMonth y m ≤ 31 := by
  unfold daysInMonth
  split
  · split <;> omega
  · split <;> omega

/-- Round trip: `strptime` of `strftime` of a valid date gives it back. -/
theorem parseDate_roundtrip {d : PyDate} (h : d.Valid) :
    parseDateDefault (dateStrftimeDefault d) = some d := by
  obtain ⟨y, m, dd⟩ := d
  unfold PyDate.Valid at h
  dsimp only at h
  obtain ⟨h1, h2, h3, h4, h5, h6⟩ := h
  have hdd : dd < 100 := by
    have := daysInMonth_le y m
    omega
  unfold dateStrftimeDefault parseDateDefault
  simp only [parse4_pad (show y < 10000 by omega) (show isDigitCh '-' = false by decide),
    parse2_pad (show m < 100 by omega) (show isDigitCh '-' = false by decide),
    parse2_pad_end hdd, expectCh_self, Option.some_bind']
  rw [if_pos ⟨trivial, h1, h3, h4, h5, h6⟩]

/-- Round trip: `strptime` of `strftime` of a valid datetime gives it back. -/
theorem parseDateTime_roundtrip {t : PyDateTime} (h : t.Valid) :
    parseDateTimeDefault (datetimeStrftimeDefault t) = some t := by
  obtain ⟨y, m, dd, hh, mi, ss⟩ := t
  unfold PyDateTime.Valid PyDate.Valid at h
  dsimp only at h
  obtain ⟨⟨h1, h2, h3, h4, h5, h6⟩, h7, h8, h9⟩ := h
  have hdd : dd < 100 := by
    have := daysInMonth_le y m
    omega
  unfold datetimeStrftimeDefault dateStrftimeDefault parseDateTimeDefault
  simp only [List.append_assoc, List.cons_append]
  simp only [parse4_pad (show y < 10000 by omega) (show isDigitCh '-' = false by decide),
    parse2_pad (show m < 100 by omega) (show isDigitCh '-' = false by decide),
    parse2_pad (show dd < 100 by omega) (show isDigitCh ' ' = false by decide),
    parse2_pad (show hh < 100 by omega) (show isDigitCh ':' = false by decide),
    parse2_pad (show mi < 100 by omega) (show isDigitCh ':' = false by decide),
    parse2_pad_end (show ss < 100 by omega), expectCh_self, Option.some_bind']
  rw [if_pos ⟨trivial, h1, h3, h4, h5, h6, h7, h8, h9⟩]

/-! ## Python values, entities and collaborators -/

/-- An entity (model instance) of the target kind: an integer primary key
and the value of its `title` field (meaningful only when the kind defines
one). -/
structure Entity where
  pk : Int
  title : Str
deriving DecidableEq, Repr

/-- External (import-time) values reaching `clean`. -/
inductive ExtVal where
  | none
  | str (s : Str)
  | int (n : Int)
deriving DecidableEq, Repr

/-- Python truthiness of an external value (`if not value`). -/
def ExtVal.toBool : ExtVal → Bool
  | .none => false
  | .str s => ¬ s = []
  | .int n => ¬ n = 0

/-- Internal (typed) values produced by `clean` and consumed by `render`. -/
inductive PyVal where
  | none
  | int (n : Int)
  | dec (d : PyDecimal)
  | bool (b : Bool)
  | str (s : Str)
  | date (d : PyDate)
  | datetime (t : PyDateTime)
  | obj (e : Entity)
  | queryset (l : List Entity)
deriving DecidableEq, Repr

/-- Python truthiness of an internal value. -/
def PyVal.toBool : PyVal → Bool
  | .none => false
  | .int n => ¬ n = 0
  | .dec d => ¬ d.coeff = 0
  | .bool b => b
  | .str s => ¬ s = []
  | .date _ => true
  | .datetime _ => true
  | .obj _ => true
  | .queryset l => ¬ l = []

/-- The Python exceptions the widgets' code paths can raise. -/
inductive PyErr where
  | valueError
  | typeError
  | attributeError
  | invalidOperation
  | objectDoesNotExist
  | multipleObjectsReturned
deriving DecidableEq, Repr

/-- `force_text` on the values the widgets render. `str(date)` and
`str(datetime)` coincide with the default-format `strftime` at second
resolution. `obj`/`queryset` stringification is model-specific
(`__unicode__`) and is not exercised by any claim; it is mapped to the
empty string. -/
def forceText : PyVal → Str
  | .none => ('N' :: 'o' :: 'n' :: 'e' :: [])
  | .int n => intStr n
  | .dec d => decStr d
  | .bool b => if b then ('T' :: 'r' :: 'u' :: 'e' :: []) else ('F' :: 'a' :: 'l' :: 's' :: 'e' :: [])
  | .str s => s
  | .date d => dateStrftimeDefault d
  | .datetime t => datetimeStrftimeDefault t
  | .obj _ => []
  | .queryset _ => []

/-! ## The widgets (`import_export/widgets.py`) -/

/-- `Widget.clean`: returns the import value unchanged. -/
def Widget.clean (v : ExtVal) : ExtVal := v

/-- `Widget.render`: `force_text(value)`. -/
def Widget.render (v : PyVal) : Str := forceText v

/-- `IntegerWidget.clean`: falsy → `None`; else `int(value)`. -/
def IntegerWidget.clean (v : ExtVal) : Except PyErr PyVal :=
  if v.toBool = false then .ok .none
  else match v with
    | .str s =>
      match pyInt s with
      | some n => .ok (.int n)
      | none => .error .valueError
    | .int n => .ok (.int n)
    | .none => .ok .none

/-- `DecimalWidget.clean`: falsy → `None`; else `Decimal(value)`. -/
def DecimalWidget.clean (v : ExtVal) : Except PyErr PyVal :=
  if v.toBool = false then .ok .none
  else match v with
    | .str s =>
      match parseDecString s with
      | some d => .ok (.dec d)
      | none => .error .invalidOperation
    | .int n => .ok (.dec ⟨decide (n < 0), n.natAbs, 0⟩)
    | .none => .ok .none

/-- `CharWidget.clean` is inherited from `Widget`: the identity. -/
def CharWidget.clean (v : ExtVal) : ExtVal := Widget.clean v

/-- `CharWidget.render`: `force_text(value)` (re-declared verbatim in the
source). -/
def CharWidget.render (v : PyVal) : Str := forceText v

/-- `BooleanWidget.TRUE_VALUES = ["1", 1]`, `FALSE_VALUE = "0"`.
`clean` tests membership with Python `==`. -/
def BooleanWidget.clean (v : ExtVal) : PyVal :=
  .bool (if v = .str ['1'] ∨ v = .int 1 then true else false)

/-- `BooleanWidget.render`: the first true-token if the value is truthy,
else the false-token. -/
def BooleanWidget.render (v : PyVal) : Str :=
  if v.toBool then ['1'] else ['0']

/-- `DateWidget.clean` at the default `"%Y-%m-%d"` format: falsy → `None`;
else `datetime.strptime(value, format).date()` (`ValueError` on a parse or
range failure, `TypeError` on a non-string). -/
def DateWidget.clean (v : ExtVal) : Except PyErr PyVal :=
  if v.toBool = false then .ok .none
  else match v with
    | .str s =>
      match parseDateDefault s with
      | some d => .ok (.date d)
      | none => .error .valueError
    | .int _ => .error .typeError
    | .none => .ok .none

/-- `DateWidget.render` at the default format: `value.strftime(format)`,
which in Python 2 raises `ValueError` for years before 1900; the bare
`except:` then falls back to `datetime_safe.new_date(value).strftime`,
whose `"%4d"` substitution space-pads years below 1000. -/
def DateWidget.render (d : PyDate) : Str :=
  if 1900 ≤ d.year then dateStrftimeDefault d else datetimeSafeDateStr d

/-- `DateTimeWidget.clean` at the default `"%Y-%m-%d %H:%M:%S"` format. -/
def DateTimeWidget.clean (v : ExtVal) : Except PyErr PyVal :=
  if v.toBool = false then .ok .none
  else match v with
    | .str s =>
      match parseDateTimeDefault s with
      | some t => .ok (.datetime t)
      | none => .error .valueError
    | .int _ => .error .typeError
    | .none => .ok .none

/-- `DateTimeWidget.render` at the default format: `value.strftime(format)`
with no fallback, so the Python 2 `ValueError` for years before 1900
propagates to the caller. -/
def DateTimeWidget.render (t : PyDateTime) : Except PyErr Str :=
  if 1900 ≤ t.year then .ok (datetimeStrftimeDefault t) else .error .valueError

/-! ## Entity storage and cache collaborators -/

/-- The target model of a reference widget: its `_meta` data (app label,
module name, whether a `title` field exists) and the stored rows. -/
structure EntityKind where
  app_label : Str
  module_name : Str
  has_title : Bool
  rows : List Entity
deriving DecidableEq, Repr

/-- Result of `Model.objects.get(pk=s)`. -/
inductive PkResult where
  | found (e : Entity)
  | notFound
  | malformed
deriving DecidableEq, Repr

/-- Result of `Model.objects.get(title=s)`. -/
inductive TitleResult where
  | found (e : Entity)
  | notFound
  | multiple
deriving DecidableEq, Repr

/-- `Model.objects.get(pk=s)`: coerce the raw string to the integer
primary key (`ValueError` → `malformed` if it is not an integer literal),
then fetch the unique row (`ObjectDoesNotExist` → `notFound`). -/
def getByPk (kind : EntityKind) (s : Str) : PkResult :=
  match pyInt s with
  | none => .malformed
  | some n =>
    match kind.rows.find? (fun e => e.pk = n) with
    | some e => .found e
    | none => .notFound

/-- `Model.objects.get(title=s)`: the unique row with that title,
`DoesNotExist` when there is none, `MultipleObjectsReturned` otherwise. -/
def getByTitle (kind : EntityKind) (s : Str) : TitleResult :=
  match kind.rows.filter (fun e => e.title = s) with
  | [] => .notFound
  | [e] => .found e
  | _ => .multiple

/-- The Django cache, as the association of keys to stored values
(a stored value may itself be `None`). -/
abbrev Cache := List (Str × Option Entity)

/-- `cache.get(key)`: `None` both on a miss and on a stored `None`. -/
def cacheGet (c : Cache) (k : Str) : Option Entity :=
  match c.lookup k with
  | some v => v
  | none => none

/-- `cache.set(key, value)`. -/
def cacheSet (c : Cache) (k : Str) (v : Option Entity) : Cache := (k, v) :: c

/-- `pk.replace(" ", "")`: remove every space character. -/
def stripSpaces (s : Str) : Str := s.filter (fun c => ¬ c = ' ')

/-- `'%s_%s_%s' % (app_label, module_name, pk.replace(" ", ""))`. -/
def cacheKey (kind : EntityKind) (pk : Str) : Str :=
  kind.app_label ++ '_' :: (kind.module_name ++ '_' :: stripSpaces pk)

/-- One storage access made by the reference widget. -/
inductive StorageQuery where
  | byPk (ident : Str)
  | byTitle (ident : Str)
deriving DecidableEq, Repr

instance {ε α : Type} [DecidableEq ε] [DecidableEq α] : DecidableEq (Except ε α) :=
  fun a b =>
    match a, b with
    | .error x, .error y =>
      if h : x = y then .isTrue (by rw [h]) else .isFalse (by simp [h])
    | .ok x, .ok y =>
      if h : x = y then .isTrue (by rw [h]) else .isFalse (by simp [h])
    | .error _, .ok _ => .isFalse (by simp)
    | .ok _, .error _ => .isFalse (by simp)

/-- The observable outcome of `ForeignKeyWidget.clean`: the returned value
(or raised exception), the cache afterwards, and the storage queries
issued, in order. -/
structure CleanOut where
  res : Except PyErr (Option Entity)
  cache : Cache
  queries : List StorageQuery
deriving DecidableEq, Repr

/-- `ForeignKeyWidget.clean`, line by line: `pk = super().clean(value)`;
falsy `pk` → return `None`; build the cache key from the app label, module
name and space-stripped `pk`; return a truthy cached object; else
`get(pk=pk)` with the raw `pk`; on `ValueError`, if the model has a
`title` field, `get(title=pk)` (whose own errors propagate and skip the
cache write), else swallow `FieldDoesNotExist`; on `ObjectDoesNotExist`
keep `obj = None`; finally `cache.set(cache_key, obj)` and return `obj`.
A non-string truthy value would raise `AttributeError` at `pk.replace`. -/
def ForeignKeyWidget.clean (kind : EntityKind) (value : ExtVal) (c : Cache) : CleanOut :=
  let pk := Widget.clean value
  if pk.toBool = false then ⟨.ok none, c, []⟩
  else match pk with
    | .int _ => ⟨.error .attributeError, c, []⟩
    | .none => ⟨.ok none, c, []⟩
    | .str s =>
      match cacheGet c (cacheKey kind s) with
      | some e => ⟨.ok (some e), c, []⟩
      | none =>
        match getByPk kind s with
        | .found e => ⟨.ok (some e), cacheSet c (cacheKey kind s) (some e), [.byPk s]⟩
        | .notFound => ⟨.ok none, cacheSet c (cacheKey kind s) none, [.byPk s]⟩
        | .malformed =>
          if kind.has_title then
            match getByTitle kind s with
            | .found e =>
              ⟨.ok (some e), cacheSet c (cacheKey kind s) (some e), [.byPk s, .byTitle s]⟩
            | .notFound => ⟨.error .objectDoesNotExist, c, [.byPk s, .byTitle s]⟩
            | .multiple => ⟨.error .multipleObjectsReturned, c, [.byPk s, .byTitle s]⟩
          else ⟨.ok none, cacheSet c (cacheKey kind s) none, [.byPk s]⟩

/-- `ForeignKeyWidget.render`: `""` for `None`, else `value.pk` itself
(the raw key, not a string). -/
def ForeignKeyWidget.render (v : Option Entity) : PyVal :=
  match v with
  | none => .str []
  | some e => .int e.pk

/-- `ManyToManyWidget.clean`: falsy → the empty queryset; else split on
`","` (no trimming) and `filter(pk__in=ids)` in one batch query, keeping
storage order; an identifier that does not coerce to an integer raises
`ValueError`; `value.split` on a non-string raises `AttributeError`. -/
def ManyToManyWidget.clean (kind : EntityKind) (v : ExtVal) : Except PyErr PyVal :=
  if v.toBool = false then .ok (.queryset [])
  else match v with
    | .str s =>
      if (s.splitOn ',').all (fun i => (pyInt i).isSome) then
        .ok (.queryset (kind.rows.filter
          (fun e => (s.splitOn ',').any (fun i => pyInt i = some e.pk))))
      else .error .valueError
    | .int _ => .error .attributeError
    | .none => .ok (.queryset [])

/-- `ManyToManyWidget.render`: the comma-joined `str(obj.pk)` of the
collection, in iteration order. -/
def ManyToManyWidget.render (l : List Entity) : Str :=
  List.intercalate [','] (l.map (fun e => intStr e.pk))

/-! ## Evaluation lemmas for `ForeignKeyWidget.clean` -/

theorem cacheGet_set_self (c : Cache) (k : Str) (v : Option Entity) :
    cacheGet (cacheSet c k v) k = v := by
  simp [cacheGet, cacheSet, List.lookup]

theorem lookup_set_self (c : Cache) (k : Str) (v : Option Entity) :
    (cacheSet c k v).lookup k = some v := by
  simp [cacheSet, List.lookup]

theorem fk_clean_hit {kind : EntityKind} {s : Str} {c : Cache} {e : Entity}
    (hs : ¬ s = []) (hhit : cacheGet c (cacheKey kind s) = some e) :
    ForeignKeyWidget.clean kind (.str s) c = ⟨.ok (some e), c, []⟩ := by
  unfold ForeignKeyWidget.clean Widget.clean
  simp [ExtVal.toBool, hs, hhit]

theorem fk_clean_found {kind : EntityKind} {s : Str} {c : Cache} {e : Entity}
    (hs : ¬ s = []) (hmiss : cacheGet c (cacheKey kind s) = none)
    (hpk : getByPk kind s = .found e) :
    ForeignKeyWidget.clean kind (.str s) c =
      ⟨.ok (some e), cacheSet c (cacheKey kind s) (some e), [.byPk s]⟩ := by
  unfold ForeignKeyWidget.clean Widget.clean
  simp [ExtVal.toBool, hs, hmiss, hpk]

theorem fk_clean_notFound {kind : EntityKind} {s : Str} {c : Cache}
    (hs : ¬ s = []) (hmiss : cacheGet c (cacheKey kind s) = none)
    (hpk : getByPk kind s = .notFound) :
    ForeignKeyWidget.clean kind (.str s) c =
      ⟨.ok none, cacheSet c (cacheKey kind s) none, [.byPk s]⟩ := by
  unfold ForeignKeyWidget.clean Widget.clean
  simp [ExtVal.toBool, hs, hmiss, hpk]

theorem fk_clean_malformed_notitle {kind : EntityKind} {s : Str} {c : Cache}
    (hs : ¬ s = []) (hmiss : cacheGet c (cacheKey kind s) = none)
    (hpk : getByPk kind s = .malformed) (ht : kind.has_title = false) :
    ForeignKeyWidget.clean kind (.str s) c =
      ⟨.ok none, cacheSet c (cacheKey kind s) none, [.byPk s]⟩ := by
  unfold ForeignKeyWidget.clean Widget.clean
  simp [ExtVal.toBool, hs, hmiss, hpk, ht]

theorem fk_clean_title_found {kind : EntityKind} {s : Str} {c : Cache} {e : Entity}
    (hs : ¬ s = []) (hmiss : cacheGet c (cacheKey kind s) = none)
    (hpk : getByPk kind s = .malformed) (ht : kind.has_title = true)
    (htl : getByTitle kind s = .found e) :
    ForeignKeyWidget.clean kind (.str s) c =
      ⟨.ok (some e), cacheSet c (cacheKey kind s) (some e), [.byPk s, .byTitle s]⟩ := by
  unfold ForeignKeyWidget.clean Widget.clean
  simp [ExtVal.toBool, hs, hmiss, hpk, ht, htl]

theorem fk_clean_title_notFound {kind : EntityKind} {s : Str} {c : Cache}
    (hs : ¬ s = []) (hmiss : cacheGet c (cacheKey kind s) = none)
    (hpk : getByPk kind s = .malformed) (ht : kind.has_title = true)
    (htl : getByTitle kind s = .notFound) :
    ForeignKeyWidget.clean kind (.str s) c =
      ⟨.error .objectDoesNotExist, c, [.byPk s, .byTitle s]⟩ := by
  unfold ForeignKeyWidget.clean Widget.clean
  simp [ExtVal.toBool, hs, hmiss, hpk, ht, htl]

theorem fk_clean_title_multiple {kind : EntityKind} {s : Str} {c : Cache}
    (hs : ¬ s = []) (hmiss : cacheGet c (cacheKey kind s) = none)
    (hpk : getByPk kind s = .malformed) (ht : kind.has_title = true)
    (htl : getByTitle kind s = .multiple) :
    ForeignKeyWidget.clean kind (.str s) c =
      ⟨.error .multipleObjectsReturned, c, [.byPk s, .byTitle s]⟩ := by
  unfold ForeignKeyWidget.clean Widget.clean
  simp [ExtVal.toBool, hs, hmiss, hpk, ht, htl]

theorem fk_clean_falsy {kind : EntityKind} {v : ExtVal} {c : Cache}
    (hv : v.toBool = false) :
    ForeignKeyWidget.clean kind v c = ⟨.ok none, c, []⟩ := by
  unfold ForeignKeyWidget.clean Widget.clean
  simp [hv]

theorem fk_clean_ok_some_inv {kind : EntityKind} {s : Str} {c c' : Cache}
    {qs : List StorageQuery} {e : Entity} (hs : ¬ s = [])
    (h : ForeignKeyWidget.clean kind (.str s) c = ⟨.ok (some e), c', qs⟩) :
    cacheGet c' (cacheKey kind s) = some e := by
  rcases hhit : cacheGet c (cacheKey kind s) with _ | e₀
  · rcases hpk : getByPk kind s with e₁ | _ | _
    · rw [fk_clean_found hs hhit hpk] at h
      simp only [CleanOut.mk.injEq, Except.ok.injEq, Option.some.injEq] at h
      obtain ⟨he, hc, -⟩ := h
      rw [← hc, cacheGet_set_self, he]
    · rw [fk_clean_notFound hs hhit hpk] at h
      simp at h
    · cases ht : kind.has_title
      · rw [fk_clean_malformed_notitle hs hhit hpk ht] at h
        simp at h
      · rcases htl : getByTitle kind s with e₁ | _ | _
        · rw [fk_clean_title_found hs hhit hpk ht htl] at h
          simp only [CleanOut.mk.injEq, Except.ok.injEq, Option.some.injEq] at h
          obtain ⟨he, hc, -⟩ := h
          rw [← hc, cacheGet_set_self, he]
        · rw [fk_clean_title_notFound hs hhit hpk ht htl] at h
          simp at h
        · rw [fk_clean_title_multiple hs hhit hpk ht htl] at h
          simp at h
  · rw [fk_clean_hit hs hhit] at h
    simp only [CleanOut.mk.injEq, Except.ok.injEq, Option.some.injEq] at h
    obtain ⟨he, hc, -⟩ := h
    rw [← hc, hhit, he]

theorem fk_clean_ok_none_inv {kind : EntityKind} {s : Str} {c c' : Cache}
    {qs : List StorageQuery} (hs : ¬ s = [])
    (h : ForeignKeyWidget.clean kind (.str s) c = ⟨.ok none, c', qs⟩) :
    c' = cacheSet c (cacheKey kind s) none ∧
    (getByPk kind s = .notFound ∨
      (getByPk kind s = .malformed ∧ kind.has_title = false)) := by
  rcases hhit : cacheGet c (cacheKey kind s) with _ | e₀
  · rcases hpk : getByPk kind s with e₁ | _ | _
    · rw [fk_clean_found hs hhit hpk] at h
      simp at h
    · rw [fk_clean_notFound hs hhit hpk] at h
      simp only [CleanOut.mk.injEq] at h
      exact ⟨h.2.1.symm, Or.inl rfl⟩
    · cases ht : kind.has_title
      · rw [fk_clean_malformed_notitle hs hhit hpk ht] at h
        simp only [CleanOut.mk.injEq] at h
        exact ⟨h.2.1.symm, Or.inr ⟨rfl, rfl⟩⟩
      · rcases htl : getByTitle kind s with e₁ | _ | _
        · rw [fk_clean_title_found hs hhit hpk ht htl] at h
          simp at h
        · rw [fk_clean_title_notFound hs hhit hpk ht htl] at h
          simp at h
        · rw [fk_clean_title_multiple hs hhit hpk ht htl] at h
          simp at h
  · rw [fk_clean_hit hs hhit] at h
    simp at h

/-! ## The claims -/

/-- C1 (counterexample): on the kind with no rows, `clean "7"` yields no
value and performs the cache write, yet the second `clean "7"` on the
resulting cache still issues a storage query — the stored "not found"
marker does not short-circuit the lookup, contradicting the claim that the
second call performs no storage query. -/
theorem claim_C1_counterexample :
    (ForeignKeyWidget.clean ⟨['a'], ['m'], false, []⟩ (.str ['7']) []).res = .ok none ∧
    ¬ (ForeignKeyWidget.clean ⟨['a'], ['m'], false, []⟩ (.str ['7'])
        (ForeignKeyWidget.clean ⟨['a'], ['m'], false, []⟩ (.str ['7']) []).cache).queries
      = [] := by
  decide

/-- C1 (amended): given a non-empty identifier that resolves to no value,
`clean` stores the "not found" outcome (`None`) in the cache under the
computed key, but a second `clean` with the same identifier in the same
session still yields no value by performing a storage query again: the
cache check only short-circuits on a non-empty cached entity, so the
negative entry never serves a hit. -/
theorem claim_C1 (kind : EntityKind) (s : Str) (c c' : Cache)
    (qs : List StorageQuery) (hs : ¬ s = [])
    (h : ForeignKeyWidget.clean kind (.str s) c = ⟨.ok none, c', qs⟩) :
    c'.lookup (cacheKey kind s) = some none ∧
    (ForeignKeyWidget.clean kind (.str s) c').res = .ok none ∧
    ¬ (ForeignKeyWidget.clean kind (.str s) c').queries = [] := by
  obtain ⟨hc', hcase⟩ := fk_clean_ok_none_inv hs h
  subst hc'
  refine ⟨lookup_set_self c _ none, ?_⟩
  have hmiss2 : cacheGet (cacheSet c (cacheKey kind s) none) (cacheKey kind s) = none :=
    cacheGet_set_self c _ none
  rcases hcase with hpk | ⟨hpk, ht⟩
  · rw [fk_clean_notFound hs hmiss2 hpk]
    exact ⟨rfl, by simp⟩
  · rw [fk_clean_malformed_notitle hs hmiss2 hpk ht]
    exact ⟨rfl, by simp⟩

/-- C1 (witness): the amended theorem applied to the concrete no-rows kind
and identifier `"7"` on the empty cache. -/
theorem claim_C1_witness :
    (¬ (['7'] : Str) = []) ∧
    ((cacheSet [] (cacheKey ⟨['a'], ['m'], false, []⟩ ['7']) none).lookup
        (cacheKey ⟨['a'], ['m'], false, []⟩ ['7']) = some none ∧
      (ForeignKeyWidget.clean ⟨['a'], ['m'], false, []⟩ (.str ['7'])
        (cacheSet [] (cacheKey ⟨['a'], ['m'], false, []⟩ ['7']) none)).res = .ok none ∧
      ¬ (ForeignKeyWidget.clean ⟨['a'], ['m'], false, []⟩ (.str ['7'])
        (cacheSet [] (cacheKey ⟨['a'], ['m'], false, []⟩ ['7']) none)).queries = []) :=
  ⟨by decide,
    claim_C1 ⟨['a'], ['m'], false, []⟩ ['7'] []
      (cacheSet [] (cacheKey ⟨['a'], ['m'], false, []⟩ ['7']) none) [.byPk ['7']]
      (by decide) (by decide)⟩

/-- C2 (counterexample): on a kind that defines a `title` field and has no
rows, `clean "abc"` (malformed as a primary key, and matching no title)
raises `ObjectDoesNotExist` instead of yielding no value, contradicting
the claim that a conclusive not-found never raises. -/
theorem claim_C2_counterexample :
    (ForeignKeyWidget.clean ⟨['a'], ['m'], true, []⟩ (.str ['a', 'b', 'c']) []).res
      = .error .objectDoesNotExist := by
  decide

/-- C2 (amended): when the primary lookup conclusively finds no entity,
`clean` yields no value and raises no error; but when the not-found
outcome comes from the title-fallback lookup, the error propagates to the
caller instead. -/
theorem claim_C2 (kind : EntityKind) (s : Str) (c : Cache)
    (hs : ¬ s = []) (hmiss : cacheGet c (cacheKey kind s) = none) :
    (getByPk kind s = .notFound →
      ForeignKeyWidget.clean kind (.str s) c =
        ⟨.ok none, cacheSet c (cacheKey kind s) none, [.byPk s]⟩) ∧
    (getByPk kind s = .malformed → kind.has_title = true →
      getByTitle kind s = .notFound →
      (ForeignKeyWidget.clean kind (.str s) c).res = .error .objectDoesNotExist) := by
  constructor
  · intro hpk
    exact fk_clean_notFound hs hmiss hpk
  · intro hpk ht htl
    rw [fk_clean_title_notFound hs hmiss hpk ht htl]

/-- C2 (witness): the amended theorem applied to a one-row kind, the
identifier `"7"` and the empty cache. -/
theorem claim_C2_witness :
    (¬ (['7'] : Str) = []) ∧
    cacheGet [] (cacheKey ⟨['a'], ['m'], true, [⟨42, ['t']⟩]⟩ ['7']) = none ∧
    (getByPk ⟨['a'], ['m'], true, [⟨42, ['t']⟩]⟩ ['7'] = .notFound →
      ForeignKeyWidget.clean ⟨['a'], ['m'], true, [⟨42, ['t']⟩]⟩ (.str ['7']) [] =
        ⟨.ok none, cacheSet [] (cacheKey ⟨['a'], ['m'], true, [⟨42, ['t']⟩]⟩ ['7']) none,
          [.byPk ['7']]⟩) :=
  ⟨by decide, by decide,
    (claim_C2 ⟨['a'], ['m'], true, [⟨42, ['t']⟩]⟩ ['7'] [] (by decide) (by decide)).1⟩

/-- C3 (counterexample): for the identifier `"4 2"` on a titleless empty
kind, the primary storage query is issued with the raw identifier
`"4 2"`, not with the space-stripped `"42"` the claim prescribes. -/
theorem claim_C3_counterexample :
    (ForeignKeyWidget.clean ⟨['a'], ['m'], false, []⟩ (.str ['4', ' ', '2']) []).queries
        = [.byPk ['4', ' ', '2']] ∧
    ¬ (ForeignKeyWidget.clean ⟨['a'], ['m'], false, []⟩ (.str ['4', ' ', '2']) []).queries
        = [.byPk (stripSpaces ['4', ' ', '2'])] := by
  decide

/-- C3 (amended): the cache key is the entity kind's namespace (app label
and module name) concatenated with the space-stripped identifier, but the
primary-key fetch is performed with the raw, unstripped identifier. -/
theorem claim_C3 (kind : EntityKind) (s : Str) (c : Cache)
    (hs : ¬ s = []) (hmiss : cacheGet c (cacheKey kind s) = none) :
    cacheKey kind s =
      kind.app_label ++ '_' :: (kind.module_name ++ '_' :: stripSpaces s) ∧
    ∃ rest, (ForeignKeyWidget.clean kind (.str s) c).queries = .byPk s :: rest := by
  refine ⟨rfl, ?_⟩
  rcases hpk : getByPk kind s with e | _ | _
  · exact ⟨[], by rw [fk_clean_found hs hmiss hpk]⟩
  · exact ⟨[], by rw [fk_clean_notFound hs hmiss hpk]⟩
  · cases ht : kind.has_title
    · exact ⟨[], by rw [fk_clean_malformed_notitle hs hmiss hpk ht]⟩
    · rcases htl : getByTitle kind s with e | _ | _
      · exact ⟨[.byTitle s], by rw [fk_clean_title_found hs hmiss hpk ht htl]⟩
      · exact ⟨[.byTitle s], by rw [fk_clean_title_notFound hs hmiss hpk ht htl]⟩
      · exact ⟨[.byTitle s], by rw [fk_clean_title_multiple hs hmiss hpk ht htl]⟩

/-- C3 (witness): the amended theorem applied to the identifier `"4 2"`
on the empty cache. -/
theorem claim_C3_witness :
    (¬ (['4', ' ', '2'] : Str) = []) ∧
    (cacheKey ⟨['a'], ['m'], false, []⟩ ['4', ' ', '2'] =
      (['a'] : Str) ++ '_' :: ((['m'] : Str) ++ '_' :: stripSpaces ['4', ' ', '2']) ∧
    ∃ rest, (ForeignKeyWidget.clean ⟨['a'], ['m'], false, []⟩
      (.str ['4', ' ', '2']) []).queries = .byPk ['4', ' ', '2'] :: rest) :=
  ⟨by decide, claim_C3 ⟨['a'], ['m'], false, []⟩ ['4', ' ', '2'] [] (by decide) (by decide)⟩

/-- C4: on a malformed primary key, `clean` attempts the secondary lookup
by the `title` attribute equal to the original (raw) identifier exactly
when the entity kind defines that attribute; when it does not, the
`FieldDoesNotExist` is swallowed and `clean` yields no value without
raising. -/
theorem claim_C4 (kind : EntityKind) (s : Str) (c : Cache)
    (hs : ¬ s = []) (hmiss : cacheGet c (cacheKey kind s) = none)
    (hpk : getByPk kind s = .malformed) :
    (kind.has_title = true →
      (ForeignKeyWidget.clean kind (.str s) c).queries = [.byPk s, .byTitle s]) ∧
    (kind.has_title = false →
      ForeignKeyWidget.clean kind (.str s) c =
        ⟨.ok none, cacheSet c (cacheKey kind s) none, [.byPk s]⟩) := by
  constructor
  · intro ht
    rcases htl : getByTitle kind s with e | _ | _
    · rw [fk_clean_title_found hs hmiss hpk ht htl]
    · rw [fk_clean_title_notFound hs hmiss hpk ht htl]
    · rw [fk_clean_title_multiple hs hmiss hpk ht htl]
  · intro ht
    exact fk_clean_malformed_notitle hs hmiss hpk ht

/-- C4 (witness): the theorem applied to the titleless empty kind and the
non-numeric identifier `"x"` on the empty cache. -/
theorem claim_C4_witness :
    (¬ (['x'] : Str) = []) ∧
    (getByPk ⟨['a'], ['m'], false, []⟩ ['x'] = .malformed) ∧
    (ForeignKeyWidget.clean ⟨['a'], ['m'], false, []⟩ (.str ['x']) [] =
      ⟨.ok none, cacheSet [] (cacheKey ⟨['a'], ['m'], false, []⟩ ['x']) none,
        [.byPk ['x']]⟩) :=
  ⟨by decide, by decide,
    (claim_C4 ⟨['a'], ['m'], false, []⟩ ['x'] [] (by decide) (by decide) (by decide)).2
      (by decide)⟩

/-- C5: if a `clean` call on a non-empty identifier returns an entity,
then a second `clean` with the same identifier on the resulting cache
returns that cached entity immediately: no storage query is issued and
the cache is returned unchanged (no cache write). -/
theorem claim_C5 (kind : EntityKind) (s : Str) (c c' : Cache) (e : Entity)
    (qs : List StorageQuery) (hs : ¬ s = [])
    (h : ForeignKeyWidget.clean kind (.str s) c = ⟨.ok (some e), c', qs⟩) :
    ForeignKeyWidget.clean kind (.str s) c' = ⟨.ok (some e), c', []⟩ :=
  fk_clean_hit hs (fk_clean_ok_some_inv hs h)

/-- C5 (witness): the theorem applied to the kind holding the row with
primary key 42 and the identifier `"42"`, after a first resolving call on
the empty cache. -/
theorem claim_C5_witness :
    (¬ (['4', '2'] : Str) = []) ∧
    ForeignKeyWidget.clean ⟨['a'], ['m'], false, [⟨42, []⟩]⟩ (.str ['4', '2'])
        (cacheSet [] (cacheKey ⟨['a'], ['m'], false, [⟨42, []⟩]⟩ ['4', '2'])
          (some ⟨42, []⟩)) =
      ⟨.ok (some ⟨42, []⟩),
        cacheSet [] (cacheKey ⟨['a'], ['m'], false, [⟨42, []⟩]⟩ ['4', '2'])
          (some ⟨42, []⟩), []⟩ :=
  ⟨by decide,
    claim_C5 ⟨['a'], ['m'], false, [⟨42, []⟩]⟩ ['4', '2'] []
      (cacheSet [] (cacheKey ⟨['a'], ['m'], false, [⟨42, []⟩]⟩ ['4', '2'])
        (some ⟨42, []⟩)) ⟨42, []⟩ [.byPk ['4', '2']]
      (by decide) (by decide)⟩

/-- C6 (counterexample): `BooleanWidget.clean` maps the empty string and
`None` to the boolean `False`, not to a null/None-equivalent "no value",
contradicting the claim's inclusion of the Boolean converter. -/
theorem claim_C6_counterexample :
    BooleanWidget.clean (.str []) = .bool false ∧
    BooleanWidget.clean .none = .bool false ∧
    ¬ BooleanWidget.clean (.str []) = PyVal.none := by
  decide

/-- C6 (amended): `clean("")` and `clean(None)` yield "no value" for the
Integer, Decimal, Date, DateTime and Reference converters (and the empty
collection for the Reference-Set converter), but the Boolean converter
yields `False`, a boolean, not a "no value". -/
theorem claim_C6 :
    IntegerWidget.clean (.str []) = .ok .none ∧ IntegerWidget.clean .none = .ok .none ∧
    DecimalWidget.clean (.str []) = .ok .none ∧ DecimalWidget.clean .none = .ok .none ∧
    DateWidget.clean (.str []) = .ok .none ∧ DateWidget.clean .none = .ok .none ∧
    DateTimeWidget.clean (.str []) = .ok .none ∧
    DateTimeWidget.clean .none = .ok .none ∧
    (∀ (kind : EntityKind) (c : Cache),
      ForeignKeyWidget.clean kind (.str []) c = ⟨.ok none, c, []⟩ ∧
      ForeignKeyWidget.clean kind .none c = ⟨.ok none, c, []⟩) ∧
    (∀ kind : EntityKind,
      ManyToManyWidget.clean kind (.str []) = .ok (.queryset []) ∧
      ManyToManyWidget.clean kind .none = .ok (.queryset [])) ∧
    BooleanWidget.clean (.str []) = .bool false ∧
    BooleanWidget.clean .none = .bool false := by
  refine ⟨by decide, by decide, by decide, by decide, by decide, by decide, by decide,
    by decide, ?_, ?_, by decide, by decide⟩
  · intro kind c
    exact ⟨fk_clean_falsy (by decide), fk_clean_falsy (by decide)⟩
  · intro kind
    exact ⟨rfl, rfl⟩

/-- C7 (counterexample): `render` of the entity with integer primary key
42 returns the integer itself, not its textual form, contradicting the
claim that the primary key is returned as text. -/
theorem claim_C7_counterexample :
    ForeignKeyWidget.render (some ⟨42, []⟩) = .int 42 ∧
    ¬ ForeignKeyWidget.render (some ⟨42, []⟩) = .str (intStr 42) := by
  decide

/-- C7 (amended): `render` of an absent (`None`) value returns the empty
string, and `render` of a present entity returns that entity's primary
key itself, in its native (integer) form rather than as text. -/
theorem claim_C7 :
    ForeignKeyWidget.render none = .str [] ∧
    ∀ e : Entity, ForeignKeyWidget.render (some e) = .int e.pk :=
  ⟨rfl, fun e => rfl⟩

theorem intStr_ne_nil (v : Int) : intStr v ≠ [] := by
  unfold intStr
  split
  · simp
  · exact natDigits_ne_nil _

theorem decStr_ne_nil (d : PyDecimal) : decStr d ≠ [] := by
  intro h
  have hrt := parseDecString_decStr d
  rw [h] at hrt
  have hnil : parseDecString ([] : Str) = none := rfl
  rw [hnil] at hrt
  exact Option.noConfusion hrt

theorem dateStrftime_ne_nil (d : PyDate) : dateStrftimeDefault d ≠ [] := by
  unfold dateStrftimeDefault
  simp

theorem datetimeStrftime_ne_nil (t : PyDateTime) : datetimeStrftimeDefault t ≠ [] := by
  unfold datetimeStrftimeDefault dateStrftimeDefault
  simp

/-- For years 1000-9999, the `datetime_safe` fallback prints the same
four-digit year as plain `strftime`, so `DateWidget.render` is the
zero-padded default form on that range. -/
theorem dateWidget_render_eq {d : PyDate} (h1000 : 1000 ≤ d.year)
    (h9999 : d.year ≤ 9999) : DateWidget.render d = dateStrftimeDefault d := by
  unfold DateWidget.render
  split
  · rfl
  · unfold datetimeSafeDateStr dateStrftimeDefault padDigits
    rw [natDigits_length_four h1000 h9999]
    simp

/-- C8 (counterexample): the round-trip law fails on the program for early
years. For the valid date 0005-01-01, `render` takes the `datetime_safe`
path and space-pads the year, which `clean` rejects with `ValueError`; and
for the valid datetime 1899-12-31 23:59:59, `render` itself raises
`ValueError` (Python 2 `strftime`, no fallback), so nothing round-trips. -/
theorem claim_C8_counterexample :
    PyDate.Valid ⟨5, 1, 1⟩ ∧
    DateWidget.clean (.str (DateWidget.render ⟨5, 1, 1⟩)) = .error .valueError ∧
    ¬ DateWidget.clean (.str (DateWidget.render ⟨5, 1, 1⟩)) = .ok (.date ⟨5, 1, 1⟩) ∧
    PyDateTime.Valid ⟨1899, 12, 31, 23, 59, 59⟩ ∧
    DateTimeWidget.render ⟨1899, 12, 31, 23, 59, 59⟩ = .error .valueError := by
  have h5 : natDigits 5 = ['5'] := by
    rw [natDigits]
    rfl
  have h1 : natDigits 1 = ['1'] := by
    rw [natDigits]
    rfl
  have hr : DateWidget.render ⟨5, 1, 1⟩
      = [' ', ' ', ' ', '5', '-', '0', '1', '-', '0', '1'] := by
    unfold DateWidget.render datetimeSafeDateStr padDigits
    dsimp only
    rw [h5, h1]
    decide
  refine ⟨by decide, ?_, ?_, by decide, ?_⟩
  · rw [hr]
    decide
  · rw [hr]
    decide
  · unfold DateTimeWidget.render
    rw [if_neg (by decide)]

/-- C8 (amended): the scalar round-trip law, on the domains where the
program can render at all. For Integer, Decimal and Text,
`clean(render(v)) = v` on the whole value domain; for Date (default
format) on dates with year ≥ 1000 — below that the `datetime_safe`
fallback space-pads the year and `clean` rejects it; for DateTime
(default format) on second-resolution datetimes with year ≥ 1900 — below
that `render` raises `ValueError`; and for Boolean on `True` and `False`
(its only lossiness is collapsing unrecognized-but-truthy inputs, which
are outside this direction of the law). -/
theorem claim_C8 :
    (∀ n : Int, IntegerWidget.clean (.str (Widget.render (.int n))) = .ok (.int n)) ∧
    (∀ d : PyDecimal,
      DecimalWidget.clean (.str (Widget.render (.dec d))) = .ok (.dec d)) ∧
    (∀ s : Str, CharWidget.clean (.str (CharWidget.render (.str s))) = .str s) ∧
    (∀ d : PyDate, d.Valid → 1000 ≤ d.year →
      DateWidget.clean (.str (DateWidget.render d)) = .ok (.date d)) ∧
    (∀ t : PyDateTime, t.Valid → 1900 ≤ t.year →
      DateTimeWidget.render t = .ok (datetimeStrftimeDefault t) ∧
      DateTimeWidget.clean (.str (datetimeStrftimeDefault t)) = .ok (.datetime t)) ∧
    BooleanWidget.clean (.str (BooleanWidget.render (.bool true))) = .bool true ∧
    BooleanWidget.clean (.str (BooleanWidget.render (.bool false))) = .bool false := by
  refine ⟨?_, ?_, ?_, ?_, ?_, by decide, by decide⟩
  · intro n
    unfold IntegerWidget.clean Widget.render forceText
    simp [ExtVal.toBool, intStr_ne_nil n, pyInt_intStr n]
  · intro d
    unfold DecimalWidget.clean Widget.render forceText
    simp [ExtVal.toBool, decStr_ne_nil d, parseDecString_decStr d]
  · intro s
    rfl
  · intro d hd h1000
    rw [dateWidget_render_eq h1000 hd.2.1]
    unfold DateWidget.clean
    simp [ExtVal.toBool, dateStrftime_ne_nil d, parseDate_roundtrip hd]
  · intro t ht h1900
    refine ⟨by unfold DateTimeWidget.render; rw [if_pos h1900], ?_⟩
    unfold DateTimeWidget.clean
    simp [ExtVal.toBool, datetimeStrftime_ne_nil t, parseDateTime_roundtrip ht]

/-- C8 (witness): the Date and DateTime parts of the round-trip law
applied at 2020-01-15 and 2020-01-15 13:05:59. -/
theorem claim_C8_witness :
    (PyDate.Valid ⟨2020, 1, 15⟩ ∧ 1000 ≤ (PyDate.mk 2020 1 15).year) ∧
    DateWidget.clean (.str (DateWidget.render ⟨2020, 1, 15⟩)) =
      .ok (.date ⟨2020, 1, 15⟩) ∧
    (PyDateTime.Valid ⟨2020, 1, 15, 13, 5, 59⟩ ∧
      1900 ≤ (PyDateTime.mk 2020 1 15 13 5 59).year) ∧
    (DateTimeWidget.render ⟨2020, 1, 15, 13, 5, 59⟩ =
        .ok (datetimeStrftimeDefault ⟨2020, 1, 15, 13, 5, 59⟩) ∧
      DateTimeWidget.clean (.str (datetimeStrftimeDefault ⟨2020, 1, 15, 13, 5, 59⟩)) =
        .ok (.datetime ⟨2020, 1, 15, 13, 5, 59⟩)) :=
  ⟨⟨by decide, by decide⟩, claim_C8.2.2.2.1 ⟨2020, 1, 15⟩ (by decide) (by decide),
    ⟨by decide, by decide⟩,
    claim_C8.2.2.2.2.1 ⟨2020, 1, 15, 13, 5, 59⟩ (by decide) (by decide)⟩

/-- C9: the Reference-Set converter maps an empty/absent value to the
empty collection (not "no value"), and any non-empty text whose
comma-separated pieces (taken verbatim, no trimming) all coerce to
integer keys to exactly the stored entities whose primary key matches
one of the pieces, in storage order, via the single batch filter. -/
theorem claim_C9 :
    (∀ kind : EntityKind,
      ManyToManyWidget.clean kind .none = .ok (.queryset []) ∧
      ManyToManyWidget.clean kind (.str []) = .ok (.queryset [])) ∧
    (∀ (kind : EntityKind) (s : Str), ¬ s = [] →
      (s.splitOn ',').all (fun i => (pyInt i).isSome) = true →
      ManyToManyWidget.clean kind (.str s) =
        .ok (.queryset (kind.rows.filter
          (fun e => (s.splitOn ',').any (fun i => pyInt i = some e.pk)))) ∧
      ∀ e : Entity,
        e ∈ kind.rows.filter
            (fun e => (s.splitOn ',').any (fun i => pyInt i = some e.pk)) ↔
          e ∈ kind.rows ∧ ∃ i ∈ s.splitOn ',', pyInt i = some e.pk) := by
  constructor
  · intro kind
    exact ⟨rfl, rfl⟩
  · intro kind s hs hall
    constructor
    · unfold ManyToManyWidget.clean
      simp [ExtVal.toBool, hs, hall]
    · intro e
      simp [List.mem_filter, List.any_eq_true]

/-- C9 (witness): `clean("1,2,3")` on the kind storing rows with primary
keys 1, 2, 3 and 9 returns exactly the rows 1, 2 and 3, in storage
order. -/
theorem claim_C9_witness :
    (¬ (['1', ',', '2', ',', '3'] : Str) = []) ∧
    ManyToManyWidget.clean ⟨['a'], ['m'], false, [⟨1, []⟩, ⟨2, []⟩, ⟨3, []⟩, ⟨9, []⟩]⟩
        (.str ['1', ',', '2', ',', '3']) =
      .ok (.queryset [⟨1, []⟩, ⟨2, []⟩, ⟨3, []⟩]) := by
  refine ⟨by decide, ?_⟩
  rw [(claim_C9.2 ⟨['a'], ['m'], false, [⟨1, []⟩, ⟨2, []⟩, ⟨3, []⟩, ⟨9, []⟩]⟩
    ['1', ',', '2', ',', '3'] (by decide) (by decide)).1]
  decide

/-- C10: when the primary lookup is malformed, the kind defines `title`,
and the title lookup itself fails (no match, or more than one), the
storage error propagates unmodified to the caller and no cache write is
performed: the cache comes back unchanged. -/
theorem claim_C10 (kind : EntityKind) (s : Str) (c : Cache)
    (hs : ¬ s = []) (hmiss : cacheGet c (cacheKey kind s) = none)
    (hpk : getByPk kind s = .malformed) (ht : kind.has_title = true) :
    (getByTitle kind s = .notFound →
      ForeignKeyWidget.clean kind (.str s) c =
        ⟨.error .objectDoesNotExist, c, [.byPk s, .byTitle s]⟩) ∧
    (getByTitle kind s = .multiple →
      ForeignKeyWidget.clean kind (.str s) c =
        ⟨.error .multipleObjectsReturned, c, [.byPk s, .byTitle s]⟩) := by
  constructor
  · intro htl
    exact fk_clean_title_notFound hs hmiss hpk ht htl
  · intro htl
    exact fk_clean_title_multiple hs hmiss hpk ht htl

/-- C10 (witness): the theorem applied to a kind with a `title` field and
no rows, and the non-numeric identifier `"x"` on the empty cache. -/
theorem claim_C10_witness :
    (¬ (['x'] : Str) = []) ∧
    (getByTitle ⟨['a'], ['m'], true, []⟩ ['x'] = .notFound →
      ForeignKeyWidget.clean ⟨['a'], ['m'], true, []⟩ (.str ['x']) [] =
        ⟨.error .objectDoesNotExist, [], [.byPk ['x'], .byTitle ['x']]⟩) :=
  ⟨by decide,
    (claim_C10 ⟨['a'], ['m'], true, []⟩ ['x'] [] (by decide) (by decide) (by decide)
      (by decide)).1⟩

end ImportExport
